import Mathlib

/-!
Yae.go: the collected-data store and its HTTP handlers

A shallow embedding of `src/Main.go`.  The package-level variable
`collectedData` becomes an explicit state component that every handler
receives and returns.  Library code that is not part of the repository
(`encoding/json` decoding of the request body, JSON string quoting, the
rendered template) is taken as a parameter of the handlers that call it.
Go strings are modelled by `String`; the only string operation of the
source that looks inside a string is `strings.Split(_, ":")`, and splitting
at the ASCII byte `:` agrees with splitting at the character `:`.
-/

namespace Yae

/-! ## Go slices -/

/-- Go slice value.  The zero value of a slice type is `nil`, which holds no
elements but is distinguishable from an allocated empty slice (for instance
by `encoding/json`). -/
inductive Slice (α : Type) where
  | nil : Slice α
  | ofList : List α → Slice α
deriving DecidableEq, Repr

/-- Elements held by a slice, in index order. -/
def Slice.elems {α : Type} : Slice α → List α
  | .nil => []
  | .ofList xs => xs

/-- Go builtin `len`. -/
def Slice.len {α : Type} (s : Slice α) : Nat := s.elems.length

/-- Go builtin `append(s, x)`: the result is never nil and holds the elements
of `s` followed by `x`. -/
def Slice.append {α : Type} (s : Slice α) (x : α) : Slice α :=
  .ofList (s.elems ++ [x])

/-! ## Data model (Main.go, lines 13-27 and 56-65) -/

/-- The struct `UserInfo` of Main.go, lines 13-25. -/
structure UserInfo where
  IP : String
  UserAgent : String
  Languages : Slice String
  Platform : String
  ScreenWidth : Int
  ScreenHeight : Int
  ColorDepth : Int
  Timezone : String
  Cookies : String
  Online : Bool
  Referrer : String
deriving DecidableEq, Repr

/-- The anonymous struct `data` decoded from the request body
(Main.go, lines 56-65). -/
structure Payload where
  Languages : Slice String
  Platform : String
  ScreenWidth : Int
  ScreenHeight : Int
  ColorDepth : Int
  Timezone : String
  Cookies : String
  Online : Bool
deriving DecidableEq, Repr

/-- Value of `collectedData` at process start: `var collectedData []UserInfo`
(Main.go, line 27) leaves the variable at the zero value of its type. -/
def collectedData : Slice UserInfo := Slice.nil

/-! ## HTTP requests and responses -/

/-- The header map of a request, keyed by canonical header name; each key
carries the list of values received for it. -/
abbrev Header := List (String × List String)

/-- Go `Header.Get`: the first value stored under the key, or the empty string
when there is none. -/
def Header.Get (h : Header) (key : String) : String :=
  match h.lookup key with
  | some (v :: _) => v
  | _ => ""

/-- The parts of `*http.Request` that the handlers read. -/
structure Request where
  Method : String
  Body : String
  RemoteAddr : String
  Header : Header
deriving DecidableEq, Repr

/-- Go `Request.UserAgent`. -/
def Request.UserAgent (r : Request) : String := Header.Get r.Header "User-Agent"

/-- Go `Request.Referer`. -/
def Request.Referer (r : Request) : String := Header.Get r.Header "Referer"

/-- What a handler has written to its `http.ResponseWriter`: the status code,
the headers set by the handler or by the library helper it calls, and the
body bytes. -/
structure Response where
  status : Nat
  header : List (String × String)
  body : String
deriving DecidableEq, Repr

def StatusOK : Nat := 200
def StatusSeeOther : Nat := 303
def StatusBadRequest : Nat := 400
def StatusMethodNotAllowed : Nat := 405

/-- Go `http.Error`: a plain-text reply with the given code whose body is the
message followed by a newline. -/
def httpError (msg : String) (code : Nat) : Response :=
  { status := code,
    header := [("Content-Type", "text/plain; charset=utf-8"),
               ("X-Content-Type-Options", "nosniff")],
    body := msg ++ "\n" }

/-- Go `http.Redirect` for an absolute URL without characters that need
escaping, called before any header was set. -/
def httpRedirect (r : Request) (url : String) (code : Nat) : Response :=
  { status := code,
    header := ("Location", url) ::
      (if r.Method = "GET" ∨ r.Method = "HEAD"
       then [("Content-Type", "text/html; charset=utf-8")] else []),
    body := if r.Method = "GET" then "<a href=\"" ++ url ++ "\">See Other</a>.\n\n" else "" }

/-- Result of one handler invocation: the value of `collectedData` afterwards,
the response, and the text printed to standard output. -/
structure Outcome where
  store : Slice UserInfo
  resp : Response
  stdout : String
deriving DecidableEq, Repr

/-! ## strings.Split -/

/-- Scanning loop of `strings.Split` for a one-character separator: `cur` holds
the characters of the current piece in reverse; a piece is emitted at each
separator and once more at the end of the input. -/
def splitAux (sep : Char) : List Char → List Char → List (List Char)
  | [], cur => [cur.reverse]
  | c :: cs, cur =>
    if c = sep then cur.reverse :: splitAux sep cs []
    else splitAux sep cs (c :: cur)

/-- Go `strings.Split(s, sep)` for a separator of one character, which is how
the only call site (Main.go, line 73) uses it. -/
def stringsSplit (s : String) (sep : Char) : List String :=
  (splitAux sep s.toList []).map String.mk

/-! ## fmt verbs used by the log lines -/

/-- Go `%v` of a `[]string`: the elements separated by blanks, in brackets. -/
def fmtStrings (s : Slice String) : String :=
  "[" ++ " ".intercalate s.elems ++ "]"

/-- Go `%d` of an `int`. -/
def fmtInt (n : Int) : String := toString n

/-! ## Handlers -/

/-- The function `collectDataHandler` of Main.go, lines 50-106.  `decode` is
`json.NewDecoder(r.Body).Decode(&data)`: the decoded struct, or the text of
the decoding error.  The result `none` stands for a run-time panic of the
index expression on line 73. -/
def collectDataHandler (decode : String → Except String Payload)
    (collectedData : Slice UserInfo) (r : Request) : Option Outcome :=
  if r.Method ≠ "POST" then
    some { store := collectedData,
           resp := httpError "Method not allowed" StatusMethodNotAllowed,
           stdout := "" }
  else
    match decode r.Body with
    | .error err =>
      some { store := collectedData,
             resp := httpError err StatusBadRequest,
             stdout := "" }
    | .ok data =>
      match (stringsSplit r.RemoteAddr ':')[0]? with
      | none => none
      | some ip0 =>
        let forwarded := Header.Get r.Header "X-Forwarded-For"
        let ip := if forwarded ≠ "" then forwarded else ip0
        let userInfo : UserInfo :=
          { IP := ip,
            UserAgent := r.UserAgent,
            Languages := data.Languages,
            Platform := data.Platform,
            ScreenWidth := data.ScreenWidth,
            ScreenHeight := data.ScreenHeight,
            ColorDepth := data.ColorDepth,
            Timezone := data.Timezone,
            Cookies := data.Cookies,
            Online := data.Online,
            Referrer := r.Referer }
        some { store := collectedData.append userInfo,
               resp := { status := StatusOK, header := [],
                         body := "Data collected (for educational purposes)" },
               stdout :=
                 "\n=== COLLECTED USER DATA ===\n" ++
                 "IP: " ++ userInfo.IP ++ "\n" ++
                 "User Agent: " ++ userInfo.UserAgent ++ "\n" ++
                 "Languages: " ++ fmtStrings userInfo.Languages ++ "\n" ++
                 "Platform: " ++ userInfo.Platform ++ "\n" ++
                 "Screen: " ++ fmtInt userInfo.ScreenWidth ++ "x" ++
                   fmtInt userInfo.ScreenHeight ++ "\n" ++
                 "Referrer: " ++ userInfo.Referrer ++ "\n" ++
                 "===========================\n" }

/-- JSON text of one `UserInfo`, with the member names of its struct tags in
declaration order.  `quote` is the JSON string-literal encoder of
`encoding/json`. -/
def encodeUserInfo (quote : String → String) (u : UserInfo) : String :=
  "\x7b" ++
  "\"ip\":" ++ quote u.IP ++
  ",\"user_agent\":" ++ quote u.UserAgent ++
  ",\"languages\":" ++
    (match u.Languages with
     | .nil => "null"
     | .ofList xs => "[" ++ ",".intercalate (xs.map quote) ++ "]") ++
  ",\"platform\":" ++ quote u.Platform ++
  ",\"screen_width\":" ++ fmtInt u.ScreenWidth ++
  ",\"screen_height\":" ++ fmtInt u.ScreenHeight ++
  ",\"color_depth\":" ++ fmtInt u.ColorDepth ++
  ",\"timezone\":" ++ quote u.Timezone ++
  ",\"cookies_enabled\":" ++ quote u.Cookies ++
  ",\"online\":" ++ (if u.Online then "true" else "false") ++
  ",\"referrer\":" ++ quote u.Referrer ++
  "\x7d"

/-- Go `json.Encoder.Encode` of a `[]UserInfo`: a nil slice encodes as the JSON
value `null`, any other slice as a JSON array of its elements; the encoder
ends its output with a newline. -/
def jsonEncode (quote : String → String) (s : Slice UserInfo) : String :=
  (match s with
   | .nil => "null"
   | .ofList xs => "[" ++ ",".intercalate (xs.map (encodeUserInfo quote)) ++ "]") ++ "\n"

/-- The function `showCollectedData` of Main.go, lines 108-111.  No status is
written explicitly, so the first write sends 200. -/
def showCollectedData (quote : String → String)
    (collectedData : Slice UserInfo) (_r : Request) : Outcome :=
  { store := collectedData,
    resp := { status := StatusOK,
              header := [("Content-Type", "application/json")],
              body := jsonEncode quote collectedData },
    stdout := "" }

/-- The function `clearDataHandler` of Main.go, lines 113-116: the variable is
assigned the allocated empty slice `[]UserInfo{}`. -/
def clearDataHandler (_collectedData : Slice UserInfo) (_r : Request) : Outcome :=
  { store := Slice.ofList [],
    resp := { status := StatusOK, header := [], body := "Data cleared" },
    stdout := "" }

/-- The function `loadingPage` of Main.go, lines 41-44.  `page` is the output
of executing the parsed template `indexHTML`. -/
def loadingPage (page : String) (collectedData : Slice UserInfo) (_r : Request) : Outcome :=
  { store := collectedData,
    resp := { status := StatusOK,
              header := [("Content-Type", "text/html; charset=utf-8")],
              body := page },
    stdout := "" }

/-- The function `redirectPage` of Main.go, lines 46-48. -/
def redirectPage (collectedData : Slice UserInfo) (r : Request) : Outcome :=
  { store := collectedData,
    resp := httpRedirect r "https://www.youtube.com/watch?v=dQw4w9WgXcQ" StatusSeeOther,
    stdout := "" }

/-! ## Serving requests one after another -/

/-- The routes registered by `main` (Main.go, lines 30-34), named after their
handler functions. -/
inductive Route where
  | loadingPage
  | redirectPage
  | collectDataHandler
  | showCollectedData
  | clearDataHandler
deriving DecidableEq, Repr

/-- One invocation of the handler registered for a route. -/
def serve (decode : String → Except String Payload) (quote : String → String)
    (page : String) (s : Slice UserInfo) (h : Route) (r : Request) : Option Outcome :=
  match h with
  | .loadingPage => some (loadingPage page s r)
  | .redirectPage => some (redirectPage s r)
  | .collectDataHandler => collectDataHandler decode s r
  | .showCollectedData => some (showCollectedData quote s r)
  | .clearDataHandler => some (clearDataHandler s r)

/-- Handling a list of calls one after another, each on the store left by the
previous one; returns the final store and the responses in order. -/
def serveAll (decode : String → Except String Payload) (quote : String → String)
    (page : String) : Slice UserInfo → List (Route × Request) →
    Option (Slice UserInfo × List Response)
  | s, [] => some (s, [])
  | s, (h, r) :: rest =>
    match serve decode quote page s h r with
    | none => none
    | some out =>
      match serveAll decode quote page out.store rest with
      | none => none
      | some (final, resps) => some (final, out.resp :: resps)

/-- Handling a list of requests to `/collect` one after another. -/
def collectAll (decode : String → Except String Payload) :
    Slice UserInfo → List Request → Option (Slice UserInfo × List Response)
  | s, [] => some (s, [])
  | s, r :: rest =>
    match collectDataHandler decode s r with
    | none => none
    | some out =>
      match collectAll decode out.store rest with
      | none => none
      | some (final, resps) => some (final, out.resp :: resps)

/-- The Record a request to `/collect` contributes: the element the handler
leaves last in a fresh store when it answers 200, nothing otherwise. -/
def submittedRecord (decode : String → Except String Payload) (r : Request) :
    Option UserInfo :=
  match collectDataHandler decode Slice.nil r with
  | none => none
  | some out => if out.resp.status = StatusOK then out.store.elems.getLast? else none

/-- Number of responses with status 200. -/
def countOK (resps : List Response) : Nat :=
  (resps.filter (fun p => p.status = StatusOK)).length

/-! ## Goroutines executing line 92 concurrently

`net/http` runs every handler invocation in its own goroutine, and
`collectedData = append(collectedData, userInfo)` is a read of the shared
variable followed by a write of it, with no lock in between.  The model
below interleaves these two accesses of several goroutines; every schedule
it admits is an execution the Go program can take. -/

/-- Position of one goroutine relative to line 92: before the read of
`collectedData`, between the read and the write (holding the value read),
or past the write. -/
inductive AppendPc where
  | ready (userInfo : UserInfo)
  | loaded (seen : Slice UserInfo) (userInfo : UserInfo)
  | done
deriving DecidableEq, Repr

/-- The shared variable together with the goroutines working on it. -/
structure Shared where
  collectedData : Slice UserInfo
  goroutines : List AppendPc
deriving DecidableEq, Repr

/-- Goroutine `i` performs its next access to `collectedData`. -/
def stepGoroutine (w : Shared) (i : Nat) : Shared :=
  match w.goroutines[i]? with
  | some (.ready u) =>
    { w with goroutines := w.goroutines.set i (.loaded w.collectedData u) }
  | some (.loaded seen u) =>
    { collectedData := seen.append u, goroutines := w.goroutines.set i .done }
  | _ => w

/-- Execution of a schedule: the list names the goroutine that moves at each
step. -/
def runSchedule (w : Shared) (sched : List Nat) : Shared :=
  sched.foldl stepGoroutine w

/-- All goroutines are past line 92. -/
def allDone (w : Shared) : Bool :=
  w.goroutines.all (fun g => g == AppendPc.done)

/-- The goroutines of `us.length` submissions, none of which has reached
line 92 yet. -/
def spawn (s : Slice UserInfo) (us : List UserInfo) : Shared :=
  { collectedData := s, goroutines := us.map AppendPc.ready }

/-- A schedule in which the appends do not overlap: the goroutines run in the
given order and each performs its read and its write back to back. -/
def serialSchedule (order : List Nat) : List Nat :=
  order.flatMap (fun i => [i, i])

/-! ## Fixtures for the worked examples -/

/-- The body of the example submission of the specification, section 8. -/
def exampleBody : String :=
  "\x7b\"platform\":\"TestOS\",\"screenWidth\":1920,\"screenHeight\":1080,\"online\":true\x7d"

/-- What `encoding/json` decodes `exampleBody` to: the members present are
set, the others keep their zero value. -/
def examplePayload : Payload :=
  { Languages := Slice.nil, Platform := "TestOS", ScreenWidth := 1920,
    ScreenHeight := 1080, ColorDepth := 0, Timezone := "", Cookies := "",
    Online := true }

/-- A second well-formed body. -/
def otherBody : String :=
  "\x7b\"languages\":[\"en-US\",\"en\"],\"platform\":\"Linux x86_64\",\"cookies\":\"Enabled\"\x7d"

/-- What `encoding/json` decodes `otherBody` to. -/
def otherPayload : Payload :=
  { Languages := Slice.ofList ["en-US", "en"], Platform := "Linux x86_64",
    ScreenWidth := 0, ScreenHeight := 0, ColorDepth := 0, Timezone := "",
    Cookies := "Enabled", Online := false }

/-- A decoder fixture that agrees with `encoding/json` on the three bodies used
in the examples: `exampleBody`, `otherBody` and the truncated body `\x7b`.
Bodies outside the fixture are reported as such. -/
def exampleDecode (body : String) : Except String Payload :=
  if body = exampleBody then .ok examplePayload
  else if body = otherBody then .ok otherPayload
  else if body = "\x7b" then .error "unexpected EOF"
  else .error "body outside the fixture"

/-- The example request of the specification, section 8: no forwarding header,
peer address `203.0.113.5:54321`. -/
def exampleRequest : Request :=
  { Method := "POST", Body := exampleBody, RemoteAddr := "203.0.113.5:54321",
    Header := [] }

/-- The Record the example request produces. -/
def exampleRecord : UserInfo :=
  { IP := "203.0.113.5", UserAgent := "", Languages := Slice.nil,
    Platform := "TestOS", ScreenWidth := 1920, ScreenHeight := 1080,
    ColorDepth := 0, Timezone := "", Cookies := "", Online := true,
    Referrer := "" }

/-- A submission that arrives through a proxy and carries client headers. -/
def otherRequest : Request :=
  { Method := "POST", Body := otherBody, RemoteAddr := "10.0.0.7:40000",
    Header := [("Referer", ["https://example.org/"]),
               ("User-Agent", ["curl/8.5.0"]),
               ("X-Forwarded-For", ["198.51.100.23"])] }

/-- The Record `otherRequest` produces. -/
def otherRecord : UserInfo :=
  { IP := "198.51.100.23", UserAgent := "curl/8.5.0",
    Languages := Slice.ofList ["en-US", "en"], Platform := "Linux x86_64",
    ScreenWidth := 0, ScreenHeight := 0, ColorDepth := 0, Timezone := "",
    Cookies := "Enabled", Online := false, Referrer := "https://example.org/" }

/-- A POST whose body is cut off after the opening brace. -/
def truncatedRequest : Request :=
  { Method := "POST", Body := "\x7b", RemoteAddr := "203.0.113.5:54321", Header := [] }

/-- A GET sent to `/collect` with a well-formed body. -/
def getRequest : Request :=
  { Method := "GET", Body := exampleBody, RemoteAddr := "203.0.113.5:54321", Header := [] }

/-- The example submission sent from the IPv6 loopback address. -/
def ipv6Request : Request :=
  { Method := "POST", Body := exampleBody, RemoteAddr := "[::1]:54321", Header := [] }

/-! # Theorems -/

/-! ## Basic facts -/

theorem splitAux_ne_nil (sep : Char) (cs cur : List Char) : splitAux sep cs cur ≠ [] := by
  induction cs generalizing cur with
  | nil => simp [splitAux]
  | cons c cs ih =>
    unfold splitAux
    split
    · simp
    · exact ih _

theorem stringsSplit_ne_nil (s : String) (sep : Char) : stringsSplit s sep ≠ [] := by
  unfold stringsSplit
  intro h
  exact splitAux_ne_nil sep s.toList [] (List.map_eq_nil_iff.mp h)

theorem stringsSplit_head (s : String) (sep : Char) :
    ∃ ip0, (stringsSplit s sep)[0]? = some ip0 := by
  cases h : stringsSplit s sep with
  | nil => exact absurd h (stringsSplit_ne_nil s sep)
  | cons a t => exact ⟨a, by simp⟩

theorem collect_not_post (decode : String → Except String Payload) (s : Slice UserInfo)
    (r : Request) (hm : r.Method ≠ "POST") :
    collectDataHandler decode s r =
      some ⟨s, httpError "Method not allowed" StatusMethodNotAllowed, ""⟩ := by
  unfold collectDataHandler
  rw [if_pos hm]

theorem collect_decode_error (decode : String → Except String Payload) (s : Slice UserInfo)
    (r : Request) (err : String) (hm : r.Method = "POST") (hd : decode r.Body = .error err) :
    collectDataHandler decode s r = some ⟨s, httpError err StatusBadRequest, ""⟩ := by
  unfold collectDataHandler
  rw [if_neg (by simp [hm]), hd]

theorem collect_decode_ok (decode : String → Except String Payload) (s : Slice UserInfo)
    (r : Request) (p : Payload) (ip0 : String) (hm : r.Method = "POST")
    (hd : decode r.Body = .ok p) (hip : (stringsSplit r.RemoteAddr ':')[0]? = some ip0) :
    ∃ out, collectDataHandler decode s r = some out ∧
      out.resp = ⟨StatusOK, [], "Data collected (for educational purposes)"⟩ ∧
      out.store = s.append
        { IP := if Header.Get r.Header "X-Forwarded-For" ≠ "" then
                  Header.Get r.Header "X-Forwarded-For" else ip0,
          UserAgent := r.UserAgent,
          Languages := p.Languages,
          Platform := p.Platform,
          ScreenWidth := p.ScreenWidth,
          ScreenHeight := p.ScreenHeight,
          ColorDepth := p.ColorDepth,
          Timezone := p.Timezone,
          Cookies := p.Cookies,
          Online := p.Online,
          Referrer := r.Referer } := by
  unfold collectDataHandler
  rw [if_neg (by simp [hm]), hd]
  simp only [hip]
  exact ⟨_, rfl, rfl, rfl⟩

theorem collect_ok_uniform (decode : String → Except String Payload) (r : Request)
    (p : Payload) (hm : r.Method = "POST") (hd : decode r.Body = .ok p) :
    ∃ u, ∀ s, ∃ out, collectDataHandler decode s r = some out ∧
      out.resp = ⟨StatusOK, [], "Data collected (for educational purposes)"⟩ ∧
      out.store = s.append u := by
  obtain ⟨ip0, hip⟩ := stringsSplit_head r.RemoteAddr ':'
  exact ⟨_, fun s => collect_decode_ok decode s r p ip0 hm hd hip⟩

theorem submittedRecord_not_post (decode : String → Except String Payload) (r : Request)
    (hm : r.Method ≠ "POST") : submittedRecord decode r = none := by
  unfold submittedRecord
  rw [collect_not_post decode _ r hm]
  simp [httpError, StatusMethodNotAllowed, StatusOK]

theorem submittedRecord_decode_error (decode : String → Except String Payload) (r : Request)
    (err : String) (hm : r.Method = "POST") (hd : decode r.Body = .error err) :
    submittedRecord decode r = none := by
  unfold submittedRecord
  rw [collect_decode_error decode _ r err hm hd]
  simp [httpError, StatusBadRequest, StatusOK]

/-- One submission, whatever its outcome: the handler returns, the store grows
by exactly the Record the request contributes, and the response is 200
exactly when there is such a Record. -/
theorem collect_step (decode : String → Except String Payload) (s : Slice UserInfo)
    (r : Request) :
    ∃ out, collectDataHandler decode s r = some out ∧
      out.store.elems = s.elems ++ (submittedRecord decode r).toList ∧
      decide (out.resp.status = StatusOK) = (submittedRecord decode r).isSome := by
  by_cases hm : r.Method = "POST"
  · cases hd : decode r.Body with
    | error err =>
      refine ⟨_, collect_decode_error decode s r err hm hd, ?_, ?_⟩
      · simp [submittedRecord_decode_error decode r err hm hd]
      · simp [submittedRecord_decode_error decode r err hm hd, httpError, StatusBadRequest,
          StatusOK]
    | ok p =>
      obtain ⟨u, h⟩ := collect_ok_uniform decode r p hm hd
      have hrec : submittedRecord decode r = some u := by
        obtain ⟨out0, h0, hr0, hs0⟩ := h Slice.nil
        unfold submittedRecord
        rw [h0]
        simp [hr0, hs0, Slice.append, Slice.elems]
      obtain ⟨out, ho, hr, hs⟩ := h s
      refine ⟨out, ho, ?_, ?_⟩
      · simp [hrec, hs, Slice.append, Slice.elems]
      · simp [hrec, hr]
  · refine ⟨_, collect_not_post decode s r hm, ?_, ?_⟩
    · simp [submittedRecord_not_post decode r hm]
    · simp [submittedRecord_not_post decode r hm, httpError, StatusMethodNotAllowed, StatusOK]

theorem collectAll_spec (decode : String → Except String Payload) (reqs : List Request) :
    ∀ s : Slice UserInfo, ∃ final resps, collectAll decode s reqs = some (final, resps) ∧
      resps.length = reqs.length ∧
      final.elems = s.elems ++ reqs.filterMap (submittedRecord decode) ∧
      resps.map (fun p => decide (p.status = StatusOK)) =
        reqs.map (fun r => (submittedRecord decode r).isSome) ∧
      final.len = s.len + countOK resps := by
  induction reqs with
  | nil =>
    intro s
    exact ⟨s, [], rfl, rfl, by simp, rfl, by simp [countOK]⟩
  | cons r rest ih =>
    intro s
    obtain ⟨out, hout, hst, hok⟩ := collect_step decode s r
    obtain ⟨final, resps, hall, hlen, hel, hmap, hcnt⟩ := ih out.store
    refine ⟨final, out.resp :: resps, ?_, ?_, ?_, ?_, ?_⟩
    · simp [collectAll, hout, hall]
    · simp [hlen]
    · rw [hel, hst]
      cases hrec : submittedRecord decode r <;> simp [List.filterMap_cons, hrec]
    · simp only [List.map_cons, hmap, hok]
    · rw [hcnt]
      have h1 : out.store.len = s.len + (submittedRecord decode r).toList.length := by
        simp [Slice.len, hst]
      rw [h1]
      cases hrec : submittedRecord decode r with
      | none =>
        have : ¬ out.resp.status = StatusOK := by simpa [hrec] using hok
        simp [countOK, List.filter_cons, this]
      | some u =>
        have : out.resp.status = StatusOK := by simpa [hrec] using hok
        simp [countOK, List.filter_cons, this]
        omega

/-- C1. Handling any finite sequence of requests to `/collect` one after
another always completes; the store afterwards holds its previous elements
followed by exactly the Records of the requests answered with 200, in the
order handled, and its length has grown by the number of 200 responses.
Starting from the store of a fresh process, the length equals the number of
200 responses. -/
theorem collect_sequence_store (decode : String → Except String Payload)
    (s : Slice UserInfo) (reqs : List Request) :
    (∃ final resps, collectAll decode s reqs = some (final, resps) ∧
      resps.length = reqs.length ∧
      final.elems = s.elems ++ reqs.filterMap (submittedRecord decode) ∧
      resps.map (fun p => decide (p.status = StatusOK)) =
        reqs.map (fun r => (submittedRecord decode r).isSome) ∧
      final.len = s.len + countOK resps) ∧
    (∃ final resps, collectAll decode collectedData reqs = some (final, resps) ∧
      final.elems = reqs.filterMap (submittedRecord decode) ∧
      final.len = countOK resps) := by
  refine ⟨collectAll_spec decode reqs s, ?_⟩
  obtain ⟨final, resps, h, _, hel, _, hcnt⟩ := collectAll_spec decode reqs collectedData
  exact ⟨final, resps, h, by simpa [collectedData, Slice.elems] using hel,
    by simpa [collectedData, Slice.len, Slice.elems] using hcnt⟩

/-- C2. After the reset handler the store is the empty sequence whatever it held
before, and `/data` then shows the empty array; any requests to `/collect`
handled after the reset leave exactly the Records of the successful ones, in
order, and nothing from before the reset.  Worked example: two submissions,
one reset, one more submission leave only the third submission's Record. -/
theorem clear_resets_store (decode : String → Except String Payload)
    (quote : String → String) (s : Slice UserInfo) (rc rd : Request)
    (reqs : List Request) :
    (clearDataHandler s rc).store.elems = [] ∧
    (clearDataHandler s rc).resp.status = 200 ∧
    (clearDataHandler s rc).resp.body = "Data cleared" ∧
    (showCollectedData quote (clearDataHandler s rc).store rd).resp.body = "[]\n" ∧
    (∃ final resps, collectAll decode (clearDataHandler s rc).store reqs = some (final, resps) ∧
      final.elems = reqs.filterMap (submittedRecord decode) ∧
      final.len = countOK resps) ∧
    (serveAll exampleDecode quote "" collectedData
        [(Route.collectDataHandler, exampleRequest), (Route.collectDataHandler, ipv6Request),
         (Route.clearDataHandler, rc), (Route.collectDataHandler, otherRequest)]).map
      (fun x => x.1.elems) = some [otherRecord] := by
  refine ⟨rfl, rfl, rfl, ?_, ?_, ?_⟩
  · simp [showCollectedData, clearDataHandler, jsonEncode]
    decide
  · obtain ⟨final, resps, h, _, hel, _, hcnt⟩ :=
      collectAll_spec decode reqs (clearDataHandler s rc).store
    exact ⟨final, resps, h, by simpa [clearDataHandler, Slice.elems] using hel,
      by simpa [clearDataHandler, Slice.len, Slice.elems] using hcnt⟩
  · rfl

/-- C3. A POST to `/collect` whose body fails to decode is answered with status
400, the body of the response is the text of the decoding error followed by
a newline, and the store is left exactly as it was. -/
theorem collect_malformed_body (decode : String → Except String Payload)
    (s : Slice UserInfo) (r : Request) (err : String)
    (hm : r.Method = "POST") (hd : decode r.Body = .error err) :
    ∃ out, collectDataHandler decode s r = some out ∧
      out.resp.status = 400 ∧ out.resp.body = err ++ "\n" ∧
      out.store = s ∧ out.store.len = s.len ∧ out.store.elems = s.elems := by
  exact ⟨_, collect_decode_error decode s r err hm hd, rfl, rfl, rfl, rfl, rfl⟩

theorem collect_malformed_body_witness :
    truncatedRequest.Method = "POST" ∧
    exampleDecode truncatedRequest.Body = .error "unexpected EOF" ∧
    ∃ out, collectDataHandler exampleDecode (Slice.ofList [exampleRecord]) truncatedRequest
        = some out ∧
      out.resp.status = 400 ∧ out.resp.body = "unexpected EOF" ++ "\n" ∧
      out.store = Slice.ofList [exampleRecord] ∧
      out.store.len = (Slice.ofList [exampleRecord]).len ∧
      out.store.elems = (Slice.ofList [exampleRecord]).elems :=
  ⟨by decide, rfl,
    collect_malformed_body exampleDecode (Slice.ofList [exampleRecord]) truncatedRequest
      "unexpected EOF" (by decide) rfl⟩

/-- C4. A request to `/collect` whose method is not POST is answered with status
405 whatever its body, its headers and the decoder make of it, and the store
is left exactly as it was; in particular the status is neither 400 nor
200. -/
theorem collect_wrong_method (decode : String → Except String Payload)
    (s : Slice UserInfo) (r : Request) (hm : r.Method ≠ "POST") :
    ∃ out, collectDataHandler decode s r = some out ∧
      out.resp.status = 405 ∧ out.resp.body = "Method not allowed\n" ∧
      out.resp.status ≠ 400 ∧ out.resp.status ≠ 200 ∧ out.store = s := by
  refine ⟨_, collect_not_post decode s r hm, rfl, ?_, ?_, ?_, rfl⟩
  · simp only [httpError]
    decide
  · simp [httpError, StatusMethodNotAllowed]
  · simp [httpError, StatusMethodNotAllowed]

theorem collect_wrong_method_witness :
    getRequest.Method ≠ "POST" ∧
    ∃ out, collectDataHandler exampleDecode (Slice.ofList [otherRecord]) getRequest = some out ∧
      out.resp.status = 405 ∧ out.resp.body = "Method not allowed\n" ∧
      out.resp.status ≠ 400 ∧ out.resp.status ≠ 200 ∧
      out.store = Slice.ofList [otherRecord] :=
  ⟨by decide,
    collect_wrong_method exampleDecode (Slice.ofList [otherRecord]) getRequest (by decide)⟩

/-- C5 (evaluation at the failing input). For the example submission sent from
the peer address `[::1]:54321` without a forwarding header, splitting the
address at every colon yields the pieces `[`, the empty string, `1]` and
`54321`, and the Record stored has the origin `[`, which is not the host
part `[::1]` or `::1` of the address. -/
theorem collect_ipv6_peer_origin :
    stringsSplit ipv6Request.RemoteAddr ':' = ["[", "", "1]", "54321"] ∧
    Header.Get ipv6Request.Header "X-Forwarded-For" = "" ∧
    (collectDataHandler exampleDecode collectedData ipv6Request).map
      (fun out => (out.resp.status, out.store.elems.map UserInfo.IP)) = some (200, ["["]) := by
  decide

/-- C6. A POST to `/collect` whose body decodes to `p` is answered with status
200 and the confirmation text, and the store afterwards is the previous
store with exactly one Record added at the end: its origin is the forwarding
header when that is non-empty and otherwise element 0 of the peer address
split at colons, its agent and referrer are the User-Agent and Referer
headers, and the remaining fields are those of `p`, unchanged. -/
theorem collect_success_appends_record (decode : String → Except String Payload)
    (s : Slice UserInfo) (r : Request) (p : Payload)
    (hm : r.Method = "POST") (hd : decode r.Body = .ok p) :
    ∃ out ip0, collectDataHandler decode s r = some out ∧
      (stringsSplit r.RemoteAddr ':')[0]? = some ip0 ∧
      out.resp.status = 200 ∧
      out.resp.body = "Data collected (for educational purposes)" ∧
      out.store.len = s.len + 1 ∧
      out.store.elems = s.elems ++
        [{ IP := if Header.Get r.Header "X-Forwarded-For" ≠ "" then
                   Header.Get r.Header "X-Forwarded-For" else ip0,
           UserAgent := Header.Get r.Header "User-Agent",
           Languages := p.Languages,
           Platform := p.Platform,
           ScreenWidth := p.ScreenWidth,
           ScreenHeight := p.ScreenHeight,
           ColorDepth := p.ColorDepth,
           Timezone := p.Timezone,
           Cookies := p.Cookies,
           Online := p.Online,
           Referrer := Header.Get r.Header "Referer" }] := by
  obtain ⟨ip0, hip⟩ := stringsSplit_head r.RemoteAddr ':'
  obtain ⟨out, ho, hr, hs⟩ := collect_decode_ok decode s r p ip0 hm hd hip
  refine ⟨out, ip0, ho, hip, ?_, ?_, ?_, ?_⟩
  · rw [hr]; rfl
  · rw [hr]
  · rw [hs]; simp [Slice.len, Slice.append, Slice.elems]
  · rw [hs]; rfl

theorem collect_success_appends_record_witness :
    exampleRequest.Method = "POST" ∧
    exampleDecode exampleRequest.Body = .ok examplePayload ∧
    (∃ out ip0, collectDataHandler exampleDecode collectedData exampleRequest = some out ∧
      (stringsSplit exampleRequest.RemoteAddr ':')[0]? = some ip0 ∧
      out.resp.status = 200 ∧
      out.resp.body = "Data collected (for educational purposes)" ∧
      out.store.len = collectedData.len + 1 ∧
      out.store.elems = collectedData.elems ++
        [{ IP := if Header.Get exampleRequest.Header "X-Forwarded-For" ≠ "" then
                   Header.Get exampleRequest.Header "X-Forwarded-For" else ip0,
           UserAgent := Header.Get exampleRequest.Header "User-Agent",
           Languages := examplePayload.Languages,
           Platform := examplePayload.Platform,
           ScreenWidth := examplePayload.ScreenWidth,
           ScreenHeight := examplePayload.ScreenHeight,
           ColorDepth := examplePayload.ColorDepth,
           Timezone := examplePayload.Timezone,
           Cookies := examplePayload.Cookies,
           Online := examplePayload.Online,
           Referrer := Header.Get exampleRequest.Header "Referer" }]) ∧
    (collectDataHandler exampleDecode collectedData exampleRequest).map
      (fun out => (out.resp.status, out.store.elems)) =
      some (200,
        [{ IP := "203.0.113.5", UserAgent := "", Languages := Slice.nil,
           Platform := "TestOS", ScreenWidth := 1920, ScreenHeight := 1080,
           ColorDepth := 0, Timezone := "", Cookies := "", Online := true,
           Referrer := "" }]) ∧
    (Slice.nil : Slice String).elems = [] :=
  ⟨by decide, rfl,
    collect_success_appends_record exampleDecode collectedData exampleRequest examplePayload
      (by decide) rfl,
    by decide, rfl⟩

/-- C7 (evaluation at the failing input). On the store of a fresh process, before
any submission or reset, `/data` answers with status 200 and content type
`application/json`, leaves the store unchanged, and its body is the JSON
value `null` followed by a newline, not the empty array. -/
theorem show_initial_store_body (quote : String → String) (r : Request) :
    (showCollectedData quote collectedData r).resp.status = 200 ∧
    (showCollectedData quote collectedData r).resp.header =
      [("Content-Type", "application/json")] ∧
    (showCollectedData quote collectedData r).store = collectedData ∧
    (showCollectedData quote collectedData r).resp.body = "null\n" ∧
    (showCollectedData quote collectedData r).resp.body ≠ "[]\n" := by
  refine ⟨rfl, rfl, rfl, ?_, ?_⟩
  · simp [showCollectedData, collectedData, jsonEncode]
  · simp [showCollectedData, collectedData, jsonEncode]

/-- On an allocated store, as left by any reset or successful submission,
`/data` answers with the JSON array of the encoded Records in insertion
order. -/
theorem show_allocated_store_body (quote : String → String) (xs : List UserInfo)
    (r : Request) :
    (showCollectedData quote (Slice.ofList xs) r).resp.status = 200 ∧
    (showCollectedData quote (Slice.ofList xs) r).resp.header =
      [("Content-Type", "application/json")] ∧
    (showCollectedData quote (Slice.ofList xs) r).store = Slice.ofList xs ∧
    (showCollectedData quote (Slice.ofList xs) r).resp.body =
      "[" ++ ",".intercalate (xs.map (encodeUserInfo quote)) ++ "]" ++ "\n" :=
  ⟨rfl, rfl, rfl, rfl⟩

/-- C8. One invocation of any of the five handlers, with any request, always
completes and leaves the store either unchanged, or with exactly one Record
added after its previous elements, or empty. -/
theorem store_transition (decode : String → Except String Payload)
    (quote : String → String) (page : String) (s : Slice UserInfo) (h : Route)
    (r : Request) :
    ∃ out, serve decode quote page s h r = some out ∧
      (out.store = s ∨
       (∃ u, out.store.elems = s.elems ++ [u] ∧ out.store.len = s.len + 1) ∨
       (out.store.elems = [] ∧ out.store.len = 0)) := by
  cases h with
  | loadingPage => exact ⟨_, rfl, Or.inl rfl⟩
  | redirectPage => exact ⟨_, rfl, Or.inl rfl⟩
  | showCollectedData => exact ⟨_, rfl, Or.inl rfl⟩
  | clearDataHandler => exact ⟨_, rfl, Or.inr (Or.inr ⟨rfl, rfl⟩)⟩
  | collectDataHandler =>
    obtain ⟨out, ho, hst, _⟩ := collect_step decode s r
    refine ⟨out, ho, ?_⟩
    cases hrec : submittedRecord decode r with
    | some u =>
      refine Or.inr (Or.inl ⟨u, ?_, ?_⟩)
      · simpa [hrec] using hst
      · simp [Slice.len, hst, hrec]
    | none =>
      left
      by_cases hm : r.Method = "POST"
      · cases hd : decode r.Body with
        | error err =>
          rw [collect_decode_error decode s r err hm hd] at ho
          cases ho; rfl
        | ok p =>
          obtain ⟨u, hu⟩ := collect_ok_uniform decode r p hm hd
          obtain ⟨o, h1, h2, h3⟩ := hu Slice.nil
          rw [submittedRecord, h1] at hrec
          simp [h2, h3, Slice.append, Slice.elems] at hrec
      · rw [collect_not_post decode s r hm] at ho
        cases ho; rfl

/-- C10. Splitting any peer address at colons yields at least one piece, so the
index 0 on line 73 is in range; the submission handler therefore always
completes, with status 405 when the method is not POST, 400 when the body
of a POST fails to decode, and 200 when it decodes. -/
theorem collect_never_panics (decode : String → Except String Payload)
    (s : Slice UserInfo) (r : Request) :
    1 ≤ (stringsSplit r.RemoteAddr ':').length ∧
    (∃ ip0, (stringsSplit r.RemoteAddr ':')[0]? = some ip0) ∧
    ∃ out, collectDataHandler decode s r = some out ∧
      ((out.resp.status = 405 ∧ r.Method ≠ "POST") ∨
       (out.resp.status = 400 ∧ r.Method = "POST" ∧ ∃ err, decode r.Body = .error err) ∨
       (out.resp.status = 200 ∧ r.Method = "POST" ∧ ∃ p, decode r.Body = .ok p)) := by
  refine ⟨?_, stringsSplit_head _ _, ?_⟩
  · have := stringsSplit_ne_nil r.RemoteAddr ':'
    exact List.length_pos.mpr this
  · by_cases hm : r.Method = "POST"
    · cases hd : decode r.Body with
      | error err =>
        exact ⟨_, collect_decode_error decode s r err hm hd,
          Or.inr (Or.inl ⟨rfl, hm, err, rfl⟩)⟩
      | ok p =>
        obtain ⟨ip0, hip⟩ := stringsSplit_head r.RemoteAddr ':'
        obtain ⟨out, ho, hr, _⟩ := collect_decode_ok decode s r p ip0 hm hd hip
        exact ⟨out, ho, Or.inr (Or.inr ⟨by rw [hr]; rfl, hm, p, rfl⟩)⟩
    · exact ⟨_, collect_not_post decode s r hm, Or.inl ⟨rfl, hm⟩⟩

theorem splitAux_prefix (sep : Char) (h rest : List Char) (hn : sep ∉ h) :
    ∀ cur, splitAux sep (h ++ sep :: rest) cur = (cur.reverse ++ h) :: splitAux sep rest [] := by
  induction h with
  | nil =>
    intro cur
    simp [splitAux]
  | cons c cs ih =>
    intro cur
    have hc : c ≠ sep := fun e => hn (e ▸ List.mem_cons_self _ _)
    have hcs : sep ∉ cs := fun m => hn (List.mem_cons_of_mem _ m)
    simp [splitAux, hc, ih hcs]

/-- Where the code does strip the port: for a peer address `host:port` whose
host part contains no colon (an IPv4 address or a host name), element 0 of
the split is the host part. -/
theorem stringsSplit_host_port (host port : String) (hn : ':' ∉ host.toList) :
    (stringsSplit (host ++ ":" ++ port) ':')[0]? = some host := by
  have h : (host ++ ":" ++ port).toList = host.toList ++ ':' :: port.toList := by
    simp [String.toList]
  unfold stringsSplit
  rw [h, splitAux_prefix ':' host.toList port.toList hn]
  simp [String.toList]

/-- A non-empty forwarding header is stored verbatim as the origin. -/
theorem collect_origin_forwarded (decode : String → Except String Payload)
    (s : Slice UserInfo) (r : Request) (p : Payload)
    (hm : r.Method = "POST") (hd : decode r.Body = .ok p)
    (hf : Header.Get r.Header "X-Forwarded-For" ≠ "") :
    ∃ out u, collectDataHandler decode s r = some out ∧ out.store.elems = s.elems ++ [u] ∧
      u.IP = Header.Get r.Header "X-Forwarded-For" := by
  obtain ⟨ip0, hip⟩ := stringsSplit_head r.RemoteAddr ':'
  obtain ⟨out, ho, _, hs⟩ := collect_decode_ok decode s r p ip0 hm hd hip
  exact ⟨out, _, ho, by rw [hs]; rfl, by simp [hf]⟩

/-! ## Concurrent appends -/

theorem stepGoroutine_twice (w : Shared) (i : Nat) (u : UserInfo)
    (h : w.goroutines[i]? = some (AppendPc.ready u)) :
    stepGoroutine (stepGoroutine w i) i =
      ⟨w.collectedData.append u, w.goroutines.set i AppendPc.done⟩ := by
  have hi : i < w.goroutines.length := by
    by_contra hc
    rw [List.getElem?_eq_none (by omega)] at h
    cases h
  have h1 : stepGoroutine w i =
      ⟨w.collectedData, w.goroutines.set i (AppendPc.loaded w.collectedData u)⟩ := by
    unfold stepGoroutine
    rw [h]
  rw [h1]
  unfold stepGoroutine
  simp [hi]

theorem serial_run (order : List Nat) :
    ∀ w : Shared, order.Nodup →
      (∀ i ∈ order, ∃ u, w.goroutines[i]? = some (AppendPc.ready u)) →
      (runSchedule w (serialSchedule order)).collectedData.elems =
        w.collectedData.elems ++ order.filterMap (fun i =>
          match w.goroutines[i]? with
          | some (AppendPc.ready u) => some u
          | _ => none) ∧
      (order = [] → (runSchedule w (serialSchedule order)).collectedData = w.collectedData) ∧
      ∀ j, (runSchedule w (serialSchedule order)).goroutines[j]? =
        if j ∈ order then some AppendPc.done else w.goroutines[j]? := by
  induction order with
  | nil =>
    intro w _ _
    simp [serialSchedule, runSchedule]
  | cons i rest ih =>
    intro w hnd hready
    obtain ⟨u, hu⟩ := hready i (List.mem_cons_self _ _)
    have hi : i < w.goroutines.length := by
      by_contra hc
      rw [List.getElem?_eq_none (by omega)] at hu
      cases hu
    have hnotin : i ∉ rest := (List.nodup_cons.mp hnd).1
    have hrun : runSchedule w (serialSchedule (i :: rest)) =
        runSchedule ⟨w.collectedData.append u, w.goroutines.set i AppendPc.done⟩
          (serialSchedule rest) := by
      simp only [serialSchedule, runSchedule, List.flatMap_cons, List.cons_append,
        List.nil_append, List.foldl_cons]
      rw [stepGoroutine_twice w i u hu]
    have hother : ∀ j ∈ rest, (w.goroutines.set i AppendPc.done)[j]? = w.goroutines[j]? := by
      intro j hj
      have hne : i ≠ j := fun e => hnotin (e ▸ hj)
      simp [List.getElem?_set, hne]
    obtain ⟨h1, _, h3⟩ := ih ⟨w.collectedData.append u, w.goroutines.set i AppendPc.done⟩
      (List.nodup_cons.mp hnd).2
      (fun j hj => by
        obtain ⟨v, hv⟩ := hready j (List.mem_cons_of_mem _ hj)
        exact ⟨v, by rw [hother j hj]; exact hv⟩)
    rw [hrun]
    refine ⟨?_, by simp, ?_⟩
    · rw [h1]
      have hfm : rest.filterMap (fun j =>
            match (w.goroutines.set i AppendPc.done)[j]? with
            | some (AppendPc.ready u) => some u
            | _ => none) =
          rest.filterMap (fun j =>
            match w.goroutines[j]? with
            | some (AppendPc.ready u) => some u
            | _ => none) := by
        apply List.filterMap_congr
        intro j hj
        rw [hother j hj]
      simp only [hfm, List.filterMap_cons, hu, Slice.append, Slice.elems, List.append_assoc,
        List.singleton_append]
    · intro j
      rw [h3 j]
      by_cases hjr : j ∈ rest
      · simp [hjr]
      · by_cases hji : j = i
        · subst hji
          simp [hjr, hi]
        · have hne : i ≠ j := fun e => hji e.symm
          simp [hjr, hji, List.getElem?_set, hne]

theorem filterMap_index_length (us : List UserInfo) (l : List Nat)
    (h : ∀ i ∈ l, i < us.length) : (l.filterMap (fun i => us[i]?)).length = l.length := by
  induction l with
  | nil => rfl
  | cons i rest ih =>
    have hi : i < us.length := h i (List.mem_cons_self _ _)
    have hrest := ih (fun j hj => h j (List.mem_cons_of_mem _ hj))
    simp [List.filterMap_cons, hi, hrest]

/-- C9 (as amended). When the appends of any number of submissions run without
overlapping, in any order, each one reading and writing `collectedData`
before the next one starts, every goroutine finishes and the store holds its
previous elements followed by all the submitted Records in the order they
ran; its length has grown by exactly the number of submissions. -/
theorem serial_appends_keep_all (s : Slice UserInfo) (us : List UserInfo)
    (order : List Nat) (hperm : order.Perm (List.range us.length)) :
    allDone (runSchedule (spawn s us) (serialSchedule order)) = true ∧
    (runSchedule (spawn s us) (serialSchedule order)).collectedData.elems =
      s.elems ++ order.filterMap (fun i => us[i]?) ∧
    (runSchedule (spawn s us) (serialSchedule order)).collectedData.len =
      s.len + us.length := by
  have hnd : order.Nodup := hperm.nodup_iff.mpr (List.nodup_range _)
  have hmem : ∀ i, i ∈ order ↔ i < us.length := by
    intro i
    rw [hperm.mem_iff, List.mem_range]
  have hready : ∀ i ∈ order, ∃ u, (spawn s us).goroutines[i]? = some (AppendPc.ready u) := by
    intro i hi
    have hlt := (hmem i).mp hi
    exact ⟨us[i], by simp [spawn, hlt]⟩
  obtain ⟨h1, _, h3⟩ := serial_run order (spawn s us) hnd hready
  have hfm : order.filterMap (fun i =>
        match (spawn s us).goroutines[i]? with
        | some (AppendPc.ready u) => some u
        | _ => none) = order.filterMap (fun i => us[i]?) := by
    apply List.filterMap_congr
    intro i hi
    have hlt := (hmem i).mp hi
    simp [spawn, hlt]
  have hlen : (order.filterMap (fun i => us[i]?)).length = us.length := by
    rw [filterMap_index_length us order (fun i hi => (hmem i).mp hi), hperm.length_eq,
      List.length_range]
  refine ⟨?_, ?_, ?_⟩
  · unfold allDone
    rw [List.all_eq_true]
    intro g hg
    obtain ⟨j, hj⟩ := List.mem_iff_getElem?.mp hg
    rw [h3 j] at hj
    by_cases hjo : j ∈ order
    · rw [if_pos hjo] at hj
      cases hj
      decide
    · rw [if_neg hjo] at hj
      have hlt : j < us.length := by
        by_contra hc
        rw [List.getElem?_eq_none (by simp [spawn]; omega)] at hj
        cases hj
      exact absurd ((hmem j).mpr hlt) hjo
  · rw [h1, hfm]; rfl
  · rw [Slice.len, h1, hfm, List.length_append, hlen]; rfl

theorem serial_appends_keep_all_witness :
    [1, 0].Perm (List.range [exampleRecord, otherRecord].length) ∧
    allDone (runSchedule (spawn collectedData [exampleRecord, otherRecord])
      (serialSchedule [1, 0])) = true ∧
    (runSchedule (spawn collectedData [exampleRecord, otherRecord])
      (serialSchedule [1, 0])).collectedData.elems =
      collectedData.elems ++ [1, 0].filterMap (fun i => [exampleRecord, otherRecord][i]?) ∧
    (runSchedule (spawn collectedData [exampleRecord, otherRecord])
      (serialSchedule [1, 0])).collectedData.len =
      collectedData.len + [exampleRecord, otherRecord].length :=
  ⟨by decide,
    serial_appends_keep_all collectedData [exampleRecord, otherRecord] [1, 0] (by decide)⟩

/-- C9 (counterexample). Two submissions whose appends overlap: both goroutines
read `collectedData` of the fresh process before either writes it back.
Both finish, and the store holds one Record, the one written last; the
other submission is lost. -/
theorem concurrent_appends_lose_update :
    allDone (runSchedule (spawn collectedData [exampleRecord, otherRecord]) [0, 1, 0, 1])
      = true ∧
    (runSchedule (spawn collectedData [exampleRecord, otherRecord])
      [0, 1, 0, 1]).collectedData.elems = [otherRecord] ∧
    (runSchedule (spawn collectedData [exampleRecord, otherRecord])
      [0, 1, 0, 1]).collectedData.len = 1 ∧
    [exampleRecord, otherRecord].length = 2 ∧
    ¬ ∀ (us : List UserInfo) (sched : List Nat),
        allDone (runSchedule (spawn collectedData us) sched) = true →
        (runSchedule (spawn collectedData us) sched).collectedData.len = us.length := by
  refine ⟨by decide, by decide, by decide, rfl, fun h => ?_⟩
  have h2 := h [exampleRecord, otherRecord] [0, 1, 0, 1] (by decide)
  revert h2
  decide

end Yae
